import Mathlib

/-!
Verification of the transition-AMR-parser derivation oracle
(`transition_amr_parser/data_oracle.py`).

The oracle's nine applicability predicates (`tryMerge`, `tryEntity`,
`tryConfirm`, `tryDependent`, `tryIntroduce`, `tryLA`, `tryRA`, `tryReduce`,
`trySWAP`), the head detector `isHead`, the alignment-cleanup pass and the
driver's priority ladder are translated directly from the source.  The graph
helpers `alignmentsToken2Node` / `findSubGraph` and the state-machine action
methods live in modules that are not part of the sources at hand; those are
modelled from the specification's description of their contracts and are
marked as such in their doc comments.
-/

set_option maxHeartbeats 1600000
set_option linter.unusedVariables false

namespace AMROracle

/-- Boolean test that the first character list is an initial segment of the
second; models Python `str.startswith` at the character level. -/
def leadsChars : List Char → List Char → Bool
  | [], _ => true
  | _ :: _, [] => false
  | a :: pa, b :: pb => a == b && leadsChars pa pb

/-- Boolean test that `sub` occurs contiguously inside the second list;
models Python's `in` operator on strings. -/
def occursChars (sub : List Char) : List Char → Bool
  | [] => leadsChars sub []
  | c :: rest => leadsChars sub (c :: rest) || occursChars sub rest

/-- Python `sub in s` for strings. -/
def pyIn (sub s : String) : Bool := occursChars sub.data s.data

/-- Python `s.startswith(pre)`. -/
def pyStartswith (s pre : String) : Bool := leadsChars pre.data s.data

/-- Python `s[:n]` (character based slicing). -/
def pySlice (s : String) (n : Nat) : String := ⟨s.data.take n⟩

/-- A gold AMR graph as used by the oracle: token list, node-id to label
mapping, labeled edge list, root id, and node-id to token-position alignment
mapping.  Mappings are association lists in insertion order, matching the
insertion-ordered dictionaries of the source. -/
structure AMR where
  tokens : List String
  nodes : List (Int × String)
  edges : List (Int × String × Int)
  root : Int
  alignments : List (Int × List Int)
deriving DecidableEq

/-- The predicted (partial) graph grown during a derivation. -/
structure PredAMR where
  tokens : List String
  nodes : List (Int × String)
  edges : List (Int × String × Int)
deriving DecidableEq

/-- Label of a node in the gold graph (`gold_amr.nodes[n]`). -/
def nodeLabel (g : AMR) (n : Int) : String := (List.lookup n g.nodes).getD ""

/-- Alignment list of a node (`gold_amr.alignments[n]`). -/
def alignLookup (g : AMR) (n : Int) : List Int :=
  (List.lookup n g.alignments).getD []

/-- Modelled from the spec: `alignmentsToken2Node(position)` returns the
(possibly empty) collection of node ids aligned to a token position, in the
insertion order of the alignment mapping. -/
def alignmentsToken2Node (g : AMR) (i : Int) : List Int :=
  g.alignments.filterMap (fun p => if p.2.contains i then some p.1 else none)

/-- Result of `findSubGraph`: a root node id and the internal edge list. -/
structure SubGraph where
  root : Int
  edges : List (Int × String × Int)
deriving DecidableEq

/-- Modelled from the spec: `findSubGraph(node_id_set)` returns the induced
subgraph of the gold graph — its edges are the gold edges with both endpoints
inside the set, and its root is the first member of the set with no incoming
internal edge (falling back to the set's first entry). -/
def findSubGraph (g : AMR) (s : List Int) : SubGraph :=
  let internal := g.edges.filter (fun e => s.contains e.1 && s.contains e.2.2)
  let r := (s.find? (fun n => !(internal.any (fun e => e.2.2 == n)))).getD (s.headD 0)
  ⟨r, internal⟩

/-- The parsing-configuration object (external `AMRStateMachine`), with the
fields consumed by the oracle's predicates: stack and buffer (top = last
element), latent queue, entity ids, merged-token map, anti-cycling swap
record, confirmed ids, append-only action log and the predicted graph. -/
structure AMRStateMachine where
  stack : List Int
  buffer : List Int
  latent : List Int
  entities : List Int
  merged_tokens : List (Int × List Int)
  swapped_words : List (Int × List Int)
  is_confirmed : List Int
  actions : List String
  amr : PredAMR
deriving DecidableEq

/-- Python `transitions.stack[-2]` (defaulting, used only under a length
guard). -/
def stack1D (ts : AMRStateMachine) : Int := ts.stack.dropLast.getLastD 0

/-- Python `transitions.swapped_words.get(x)` flattened to a list (missing
key gives the empty list, so membership tests agree with the guarded source
expression). -/
def swappedLookup (ts : AMRStateMachine) (x : Int) : List Int :=
  (List.lookup x ts.swapped_words).getD []

/-- The oracle's single-slot scratch state (`new_edge`, `new_node`,
`entity_type`, `dep_id`), written by a winning predicate and read once by the
driver. -/
structure Oracle where
  new_edge : String
  new_node : String
  entity_type : String
  dep_id : Option Int
deriving DecidableEq

/-- The oracle scratch state as initialised by `AMR_Oracle.__init__`. -/
def initOracle : Oracle := ⟨"", "", "", none⟩

/-- Loop of `AMR_Oracle.isHead` over the gold edge list: the first gold edge
from `source` to `target` whose counterpart `(x, r, y)` is not yet in the
predicted edge list is reported. -/
def isHeadLoop (amr : PredAMR) (source target : Int) (x y : Int) :
    List (Int × String × Int) → Bool × String
  | [] => (false, "")
  | (s, r, t) :: rest =>
    if source == s && target == t && !(amr.edges.contains (x, r, y)) then
      (true, r)
    else
      isHeadLoop amr source target x y rest

/-- `AMR_Oracle.isHead`: resolve `x` and `y` to gold subgraph roots and look
for an undischarged gold edge between the roots. -/
def isHead (amr : PredAMR) (gold : AMR) (x y : Int) : Bool × String :=
  let x_alignment := alignmentsToken2Node gold x
  let y_alignment := alignmentsToken2Node gold y
  if y_alignment.isEmpty || x_alignment.isEmpty then (false, "")
  else
    let source :=
      if x_alignment.length > 1 then (findSubGraph gold x_alignment).root
      else x_alignment.headD 0
    let target :=
      if y_alignment.length > 1 then (findSubGraph gold y_alignment).root
      else y_alignment.headD 0
    isHeadLoop amr source target x y gold.edges

/-- Python truthiness of the optional token-id arguments of `tryMerge`
(`None` and `0` are falsy). -/
def pyFalsy : Option Int → Bool
  | none => true
  | some v => v == 0

/-- Body of `AMR_Oracle.tryMerge` once the pair of token ids is fixed. -/
def tryMergeCore (gold : AMR) (first second : Int) : Bool :=
  if first == second then false
  else
    let first_alignment := alignmentsToken2Node gold first
    let second_alignment := alignmentsToken2Node gold second
    if first_alignment.isEmpty || second_alignment.isEmpty then false
    else if first_alignment == second_alignment then true
    else if first_alignment.any (fun x => second_alignment.contains x) then true
    else false

/-- `AMR_Oracle.tryMerge`: when `first`/`second` are not supplied (or falsy)
they default to the stack's top two items; merge is offered when the two
alignment lists are identical or overlap. -/
def tryMerge (ts : AMRStateMachine) (amr : PredAMR) (gold : AMR)
    (first second : Option Int) : Bool :=
  if pyFalsy first || pyFalsy second then
    if ts.stack.length < 2 then false
    else tryMergeCore gold (ts.stack.getLastD 0) (stack1D ts)
  else tryMergeCore gold (first.getD 0) (second.getD 0)

/-- The gold node a stack item resolves to: the sole aligned node when the
alignment is a singleton, the subgraph root otherwise (shared resolution step
of `tryConfirm`, `tryReduce`, `tryDependent`). -/
def resolvedGold (gold : AMR) (tok : Int) : Int :=
  let tok_alignment := alignmentsToken2Node gold tok
  if tok_alignment.length == 1 then tok_alignment.headD 0
  else (findSubGraph gold tok_alignment).root

/-- `AMR_Oracle.tryConfirm`.  The bookkeeping into `possiblePredicates` /
`preds2Ints` is diagnostic only and not modelled; the scratch update of
`new_node` is returned in the second component. -/
def tryConfirm (o : Oracle) (ts : AMRStateMachine) (amr : PredAMR)
    (gold : AMR) : Bool × Oracle :=
  match ts.stack.getLast? with
  | none => (false, o)
  | some stack0 =>
    let tok_alignment := alignmentsToken2Node gold stack0
    if !(pyIn "DEPENDENT" (ts.actions.getLastD "")) && tok_alignment.length != 1 then
      (false, o)
    else if ts.entities.contains stack0 then (false, o)
    else
      let gold_id :=
        if tok_alignment.length == 1 then tok_alignment.headD 0
        else (findSubGraph gold tok_alignment).root
      if ts.is_confirmed.contains stack0 then (false, o)
      else (true, { o with new_node := nodeLabel gold gold_id })

/-- `AMR_Oracle.tryLA`: an undischarged gold edge from `stack[-1]` to
`stack[-2]`, unless a MERGE with the buffer top is pending. -/
def tryLA (o : Oracle) (ts : AMRStateMachine) (amr : PredAMR)
    (gold : AMR) : Bool × Oracle :=
  if ts.stack.length < 2 then (false, o)
  else if ts.buffer.length > 0 &&
      tryMerge ts amr gold (some (ts.stack.getLastD 0))
        (some (ts.buffer.getLastD 0)) then
    (false, o)
  else
    let head := ts.stack.getLastD 0
    let dependent := stack1D ts
    let r := isHead amr gold head dependent
    if r.1 then (true, { o with new_edge := r.2 }) else (false, o)

/-- `AMR_Oracle.tryRA`: an undischarged gold edge from `stack[-2]` to
`stack[-1]`, unless a MERGE with the buffer top is pending. -/
def tryRA (o : Oracle) (ts : AMRStateMachine) (amr : PredAMR)
    (gold : AMR) : Bool × Oracle :=
  if ts.stack.length < 2 then (false, o)
  else if ts.buffer.length > 0 &&
      tryMerge ts amr gold (some (ts.stack.getLastD 0))
        (some (ts.buffer.getLastD 0)) then
    (false, o)
  else
    let head := stack1D ts
    let dependent := ts.stack.getLastD 0
    let r := isHead amr gold head dependent
    if r.1 then (true, { o with new_edge := r.2 }) else (false, o)

/-- `AMR_Oracle.tryReduce` as invoked by the driver (`node_id=None`, so the
inspected item is always the stack top): reduce when nothing is aligned to
the token, or when all of its gold edges are already predicted, with entity
ids counting gold edges between the resolved root and the alignment set as
realized. -/
def tryReduce (ts : AMRStateMachine) (amr : PredAMR) (gold : AMR) : Bool :=
  match ts.stack.getLast? with
  | none => false
  | some stack0 =>
    let node_id := stack0
    let tok_alignment := alignmentsToken2Node gold node_id
    if tok_alignment.length == 0 then true
    else
      let mergeInstead :=
        match ts.buffer.getLast? with
        | some buffer0 => alignmentsToken2Node gold buffer0 == tok_alignment
        | none => false
      if mergeInstead then false
      else
        let gold_id :=
          if tok_alignment.length == 1 then tok_alignment.headD 0
          else (findSubGraph gold tok_alignment).root
        let countSource :=
          (amr.edges.filter (fun e => e.2.1 != "entity" && e.1 == node_id)).length
        let countTarget :=
          (amr.edges.filter (fun e => e.2.1 != "entity" && e.2.2 == node_id)).length
        let countSourceGold :=
          (gold.edges.filter (fun e => e.1 == gold_id)).length
        let countTargetGold :=
          (gold.edges.filter (fun e => e.2.2 == gold_id)).length
        let countSource :=
          if ts.entities.contains node_id then
            countSource +
              (gold.edges.filter
                (fun e => e.1 == gold_id && tok_alignment.contains e.2.2)).length
          else countSource
        let countTarget :=
          if ts.entities.contains node_id then
            countTarget +
              (gold.edges.filter
                (fun e => e.2.2 == gold_id && tok_alignment.contains e.1)).length
          else countTarget
        countSourceGold == countSource && countTargetGold == countTarget

/-- `AMR_Oracle.trySWAP`: the top two stack items must not have been swapped
past each other in either direction, no MERGE with the buffer top may be
pending, and some other stack item must be gold head or dependent of the
stack top or share its exact alignment. -/
def trySWAP (ts : AMRStateMachine) (amr : PredAMR) (gold : AMR) : Bool :=
  if ts.stack.length < 2 then false
  else
    let stack0 := ts.stack.getLastD 0
    let stack1 := stack1D ts
    if (swappedLookup ts stack0).contains stack1 then false
    else if (swappedLookup ts stack1).contains stack0 then false
    else if ts.buffer.length > 0 &&
        tryMerge ts amr gold (some stack0) (some (ts.buffer.getLastD 0)) then
      false
    else
      let tok_alignment := alignmentsToken2Node gold stack0
      ts.stack.any (fun tok =>
        !(tok == stack1) && !(tok == stack0) &&
          ((isHead amr gold stack0 tok).1 ||
           (isHead amr gold tok stack0).1 ||
           alignmentsToken2Node gold tok == tok_alignment))

/-- Loop of `AMR_Oracle.tryDependent` over the gold edges: the first
`:polarity` / `:mode` edge out of `source` whose counterpart is not already
predicted from `stack0` and whose target is not aligned elsewhere wins. -/
def tryDependentLoop (o : Oracle) (ts : AMRStateMachine) (amr : PredAMR)
    (gold : AMR) (stack0 source : Int) (tok_alignment : List Int) :
    List (Int × String × Int) → Bool × Oracle
  | [] => (false, o)
  | (s, r, t) :: rest =>
    if s == source && (r == ":polarity" || r == ":mode") then
      if amr.edges.any (fun e => e.1 == stack0 && e.2.1 == r) then
        tryDependentLoop o ts amr gold stack0 source tok_alignment rest
      else if !(tok_alignment.contains t) && !(alignLookup gold t).isEmpty then
        tryDependentLoop o ts amr gold stack0 source tok_alignment rest
      else
        (true, { o with new_edge := r, new_node := nodeLabel gold t })
    else
      tryDependentLoop o ts amr gold stack0 source tok_alignment rest

/-- `AMR_Oracle.tryDependent`: add a `:polarity` / `:mode` dependent that is
aligned to this token (or unaligned) and not yet predicted.  The scratch slot
`dep_id` is never written here. -/
def tryDependent (o : Oracle) (ts : AMRStateMachine) (amr : PredAMR)
    (gold : AMR) : Bool × Oracle :=
  match ts.stack.getLast? with
  | none => (false, o)
  | some stack0 =>
    let tok_alignment := alignmentsToken2Node gold stack0
    if tok_alignment.isEmpty then (false, o)
    else
      let source :=
        if tok_alignment.length == 1 then tok_alignment.headD 0
        else (findSubGraph gold tok_alignment).root
      tryDependentLoop o ts amr gold stack0 source tok_alignment gold.edges

/-- `AMR_Oracle.tryEntity`: the stack top is aligned to more than one gold
node, is not yet an entity, no MERGE with `stack[-2]` or any buffer item is
pending, the induced subgraph has an edge, and a two-node `:mode`/`:polarity`
subgraph defers to DEPENDENT; the entity type is the comma-joined labels of
the aligned nodes that occur as an internal edge source. -/
def tryEntity (o : Oracle) (ts : AMRStateMachine) (amr : PredAMR)
    (gold : AMR) : Bool × Oracle :=
  match ts.stack.getLast? with
  | none => (false, o)
  | some stack0 =>
    if ts.entities.contains stack0 then (false, o)
    else
      let tok_alignment := alignmentsToken2Node gold stack0
      if tok_alignment.length ≤ 1 then (false, o)
      else if ts.stack.length > 1 &&
          tryMerge ts amr gold (some stack0) (some (stack1D ts)) then
        (false, o)
      else if ts.buffer.any (fun i =>
          tryMerge ts amr gold (some stack0) (some i)) then
        (false, o)
      else
        let edges := (findSubGraph gold tok_alignment).edges
        if edges.isEmpty then (false, o)
        else if tok_alignment.length == 2 && edges.length == 1 &&
            ((edges.headD (0, "", 0)).2.1 == ":mode" ||
             (edges.headD (0, "", 0)).2.1 == ":polarity") then
          (false, o)
        else
          let final_nodes := tok_alignment.filter
            (fun n => !(edges.any (fun e => e.1 == n)))
          let new_nodes := (tok_alignment.filter
            (fun n => !(final_nodes.contains n))).map (nodeLabel gold)
          (true, { o with entity_type := String.intercalate "," new_nodes })

/-- Whether a latent node matches the stack top for INTRODUCE: `isHead` in
either direction, checked in the source's order. -/
def introMatch (amr : PredAMR) (gold : AMR) (stack0 k : Int) : Bool :=
  (isHead amr gold stack0 k).1 || (isHead amr gold k stack0).1

/-- Index of the first element satisfying `p`. -/
def firstIdxP (p : Int → Bool) : List Int → Option Nat
  | [] => none
  | x :: xs => if p x then some 0 else (firstIdxP p xs).map (· + 1)

/-- `AMR_Oracle.tryIntroduce`: some latent node is gold head or dependent of
the stack top (scanned from the most recent end) and no MERGE with the buffer
top is pending; on success the matching latent node is promoted to the end of
the latent queue (the source's `latent.append(latent.pop(idx))`). -/
def tryIntroduce (ts : AMRStateMachine) (amr : PredAMR) (gold : AMR) :
    Bool × AMRStateMachine :=
  if ts.stack.isEmpty || ts.latent.isEmpty then (false, ts)
  else
    let stack0 := ts.stack.getLastD 0
    if ts.buffer.length > 0 &&
        tryMerge ts amr gold (some stack0) (some (ts.buffer.getLastD 0)) then
      (false, ts)
    else
      match firstIdxP (fun k => introMatch amr gold stack0 k) ts.latent.reverse with
      | none => (false, ts)
      | some j =>
        let idx := ts.latent.length - 1 - j
        let promoted := ts.latent.take idx ++ ts.latent.drop (idx + 1) ++ [ts.latent.getD idx 0]
        (true, { ts with latent := promoted })

/-- The action chosen by one driver iteration, with the parameters the
driver passes to the state machine; `FORCE_STOP` is the forced-empty exit of
the final `else` branch. -/
inductive Act where
  | MERGE : Act
  | ENTITY : String → Act
  | CONFIRM : String → Act
  | DEPENDENT : String → String → Option Int → Act
  | INTRODUCE : Act
  | LA : String → Act
  | RA : String → Act
  | REDUCE : Act
  | SWAP : Act
  | SHIFT : Act
  | FORCE_STOP : Act
deriving DecidableEq

/-- The action kind, forgetting parameters. -/
inductive ActTag where
  | merge | entity | confirm | dependent | introduce
  | la | ra | reduce | swap | shift | forceStop
deriving DecidableEq

/-- Tag of an action. -/
def actTag : Act → ActTag
  | .MERGE => .merge
  | .ENTITY _ => .entity
  | .CONFIRM _ => .confirm
  | .DEPENDENT _ _ _ => .dependent
  | .INTRODUCE => .introduce
  | .LA _ => .la
  | .RA _ => .ra
  | .REDUCE => .reduce
  | .SWAP => .swap
  | .SHIFT => .shift
  | .FORCE_STOP => .forceStop

/-- Result of one driver iteration: the chosen action and the oracle scratch
state and machine as left by the decision phase (the machine is altered by
the decision itself only by `tryIntroduce`'s latent promotion and by the
forced-empty exit). -/
structure StepRes where
  act : Act
  oracle : Oracle
  machine : AMRStateMachine
deriving DecidableEq

/-- One iteration of the derivation loop of `AMR_Oracle.runOracle` (lines
206-270): the `if`/`elif` ladder consulting the nine predicates in the
source's order, the SHIFT fallback, and the forced-empty exit. -/
def oracleStep (o : Oracle) (ts : AMRStateMachine) (gold : AMR) : StepRes :=
  if tryMerge ts ts.amr gold none none then
    ⟨.MERGE, o, ts⟩
  else if (tryEntity o ts ts.amr gold).1 then
    ⟨.ENTITY (tryEntity o ts ts.amr gold).2.entity_type, (tryEntity o ts ts.amr gold).2, ts⟩
  else if (tryConfirm o ts ts.amr gold).1 then
    ⟨.CONFIRM (tryConfirm o ts ts.amr gold).2.new_node, (tryConfirm o ts ts.amr gold).2, ts⟩
  else if (tryDependent o ts ts.amr gold).1 then
    ⟨.DEPENDENT (tryDependent o ts ts.amr gold).2.new_edge
        (tryDependent o ts ts.amr gold).2.new_node
        (tryDependent o ts ts.amr gold).2.dep_id,
      { (tryDependent o ts ts.amr gold).2 with dep_id := none }, ts⟩
  else if (tryIntroduce ts ts.amr gold).1 then
    ⟨.INTRODUCE, o, (tryIntroduce ts ts.amr gold).2⟩
  else if (tryLA o ts ts.amr gold).1 then
    ⟨.LA (tryLA o ts ts.amr gold).2.new_edge, (tryLA o ts ts.amr gold).2, ts⟩
  else if (tryRA o ts ts.amr gold).1 then
    ⟨.RA (tryRA o ts ts.amr gold).2.new_edge, (tryRA o ts ts.amr gold).2, ts⟩
  else if tryReduce ts ts.amr gold then
    ⟨.REDUCE, o, ts⟩
  else if trySWAP ts ts.amr gold then
    ⟨.SWAP, o, ts⟩
  else if !ts.buffer.isEmpty then
    ⟨.SHIFT, o, ts⟩
  else
    ⟨.FORCE_STOP, o, { ts with stack := [], buffer := [] }⟩

/-- The nine applicability predicates evaluated on one configuration, listed
in the fixed priority order the driver consults them in. -/
def predBools (o : Oracle) (ts : AMRStateMachine) (gold : AMR) : List Bool :=
  [tryMerge ts ts.amr gold none none,
   (tryEntity o ts ts.amr gold).1,
   (tryConfirm o ts ts.amr gold).1,
   (tryDependent o ts ts.amr gold).1,
   (tryIntroduce ts ts.amr gold).1,
   (tryLA o ts ts.amr gold).1,
   (tryRA o ts ts.amr gold).1,
   tryReduce ts ts.amr gold,
   trySWAP ts ts.amr gold]

/-- The action kinds in the driver's priority order. -/
def tagOrder : List ActTag :=
  [.merge, .entity, .confirm, .dependent, .introduce, .la, .ra, .reduce, .swap]

/-- First-true-wins dispatch over a priority list of (predicate result,
action kind) pairs, with the SHIFT fallback and forced exit. -/
def dispatchList : List (Bool × ActTag) → Bool → ActTag
  | [], bufEmpty => if bufEmpty then .forceStop else .shift
  | (b, t) :: rest, bufEmpty => if b then t else dispatchList rest bufEmpty

/-- The dispatch policy the specification describes: the first predicate in
the fixed order that returns true wins; SHIFT only when all nine fail and the
buffer is non-empty. -/
def specDispatch (bs : List Bool) (bufEmpty : Bool) : ActTag :=
  dispatchList (bs.zip tagOrder) bufEmpty

/-- Removal of one node-to-token link (`gold_amr.alignments[node].remove(pos)`,
Python's first-occurrence list removal). -/
def removeAlign (al : List (Int × List Int)) (node : Int) (pos : Int) :
    List (Int × List Int) :=
  al.map (fun p => if p.1 == node then (p.1, p.2.erase pos) else p)

/-- The source's `remove = 0 / remove = 1` selection (lines 186-188): the
first node's link is chosen for removal when the second node's label starts
with the token's two-character prefix or the first node's alignment list is
the longer one; otherwise the second node's link is chosen. -/
def codeRemoveChoice (gold : AMR) (tok : String) (a0 a1 : Int) : Int :=
  if pyStartswith (nodeLabel gold a1) (pySlice tok 2) ||
      decide ((alignLookup gold a0).length > (alignLookup gold a1).length) then
    a0
  else a1

/-- The alignment-cleanup body of `AMR_Oracle.runOracle` (lines 181-190) for
token index `i` (0-based; token positions are 1-based): a token aligned to
exactly two nodes with no gold edge between them loses the link chosen by
`codeRemoveChoice`. -/
def cleanStep (gold : AMR) (i : Nat) : AMR :=
  let tok := gold.tokens.getD i ""
  let align := alignmentsToken2Node gold (Int.ofNat (i + 1))
  if align.length == 2 then
    let edges := gold.edges.filter
      (fun e => align.contains e.1 && align.contains e.2.2)
    if edges.isEmpty then
      let remove := codeRemoveChoice gold tok (align.getD 0 0) (align.getD 1 0)
      { gold with alignments := removeAlign gold.alignments remove (Int.ofNat (i + 1)) }
    else gold
  else gold

/-- The full alignment-cleanup pass: `cleanStep` over every token index, the
graph being rewritten in place as the loop advances. -/
def cleanAlignments (gold : AMR) : AMR :=
  (List.range gold.tokens.length).foldl cleanStep gold

/-- A fresh node id for a synthesized dependent node. -/
def freshId (ts : AMRStateMachine) : Int :=
  (ts.amr.nodes.map (fun p => p.1)).foldl max 0 + 1

/-- Relabel a node of the predicted graph. -/
def setLabel (nodes : List (Int × String)) (n : Int) (l : String) :
    List (Int × String) :=
  nodes.map (fun p => if p.1 == n then (p.1, l) else p)

/-- Record that `a` has been swapped past `b`. -/
def addSwap (sw : List (Int × List Int)) (a b : Int) : List (Int × List Int) :=
  if sw.any (fun p => p.1 == a) then
    sw.map (fun p => if p.1 == a then (p.1, p.2 ++ [b]) else p)
  else sw ++ [(a, [b])]

/-- Absorb the token list of `b` into the merged-token record of `a`. -/
def addMerge (mt : List (Int × List Int)) (a b : Int) : List (Int × List Int) :=
  let bToks := (List.lookup b mt).getD [b]
  let aToks := (List.lookup a mt).getD [a]
  (mt.filter (fun p => !(p.1 == a))) ++ [(a, aToks ++ bToks)]

/-- Modelled from the spec: the mutating action methods of the external
`AMRStateMachine` (absent from the sources), following the action summary in
the source's module docstring and the specification — SHIFT moves the buffer
top onto the stack, REDUCE deletes the stack top, CONFIRM assigns a concept
and marks the item confirmed, SWAP moves `stack[-2]` to the buffer and
records the anti-cycling pair, LA/RA add the corresponding predicted edge,
ENTITY marks the stack top as an entity, MERGE collapses the top two stack
items, DEPENDENT attaches a synthesized node under the stack top, INTRODUCE
moves the promoted latent node onto the stack.  Every action appends to the
action log. -/
def applyAct (a : Act) (ts : AMRStateMachine) : AMRStateMachine :=
  let stack0 := ts.stack.getLastD 0
  let stack1 := stack1D ts
  match a with
  | .SHIFT =>
    { ts with stack := ts.stack ++ [ts.buffer.getLastD 0],
              buffer := ts.buffer.dropLast,
              actions := ts.actions ++ ["SHIFT"] }
  | .REDUCE =>
    { ts with stack := ts.stack.dropLast,
              actions := ts.actions ++ ["REDUCE"] }
  | .CONFIRM l =>
    { ts with is_confirmed := ts.is_confirmed ++ [stack0],
              amr := { ts.amr with nodes := setLabel ts.amr.nodes stack0 l },
              actions := ts.actions ++ ["PRED(" ++ l ++ ")"] }
  | .SWAP =>
    { ts with stack := ts.stack.dropLast.dropLast ++ [stack0],
              buffer := ts.buffer ++ [stack1],
              swapped_words := addSwap ts.swapped_words stack0 stack1,
              actions := ts.actions ++ ["SWAP"] }
  | .LA e =>
    { ts with amr := { ts.amr with edges := ts.amr.edges ++ [(stack0, e, stack1)] },
              actions := ts.actions ++ ["LA(" ++ e ++ ")"] }
  | .RA e =>
    { ts with amr := { ts.amr with edges := ts.amr.edges ++ [(stack1, e, stack0)] },
              actions := ts.actions ++ ["RA(" ++ e ++ ")"] }
  | .ENTITY t =>
    { ts with entities := ts.entities ++ [stack0],
              actions := ts.actions ++ ["ENTITY(" ++ t ++ ")"] }
  | .MERGE =>
    { ts with stack := ts.stack.dropLast.dropLast ++ [stack0],
              merged_tokens := addMerge ts.merged_tokens stack0 stack1,
              actions := ts.actions ++ ["MERGE"] }
  | .DEPENDENT e n i =>
    let tgt := i.getD (freshId ts)
    let amr1 := { ts.amr with nodes := ts.amr.nodes ++ [(tgt, n)], edges := ts.amr.edges ++ [(stack0, e, tgt)] }
    { ts with amr := amr1,
              actions := ts.actions ++ ["DEPENDENT(" ++ e ++ "," ++ n ++ ")"] }
  | .INTRODUCE =>
    { ts with stack := ts.stack ++ [ts.latent.getLastD 0],
              latent := ts.latent.dropLast,
              actions := ts.actions ++ ["INTRODUCE"] }
  | .FORCE_STOP => ts

/-- Modelled from the spec: `CLOSE(training=True, ...)` finalizes the
predicted graph after the loop; for this development only its appearance in
the action log matters. -/
def applyClose (ts : AMRStateMachine) : AMRStateMachine :=
  { ts with actions := ts.actions ++ ["CLOSE"] }

/-- The per-action-type statistics counter keys incremented by the driver
(`self.stats[...][...] += 1`): every branch of the ladder increments its
action's counter; the SHIFT fallback and the forced-empty exit increment
nothing. -/
def statFor : Act → List String
  | .MERGE => ["MERGE"]
  | .ENTITY _ => ["ENTITY"]
  | .CONFIRM _ => ["CONFIRM"]
  | .DEPENDENT _ _ _ => ["DEPENDENT"]
  | .INTRODUCE => ["INTRODUCE"]
  | .LA _ => ["LA"]
  | .RA _ => ["RA"]
  | .REDUCE => ["REDUCE"]
  | .SWAP => ["SWAP"]
  | .SHIFT => []
  | .FORCE_STOP => []

/-- The statistics table keys of `AMR_Oracle.__init__`: there is no counter
for the forced-empty (derivation stall) exit. -/
def statKeys : List String :=
  ["CONFIRM", "REDUCE", "SWAP", "LA", "RA", "ENTITY", "MERGE", "DEPENDENT",
   "INTRODUCE"]

/-- State of one sentence's derivation: oracle scratch, machine, the log of
statistics-counter increments, and the emitted action trace. -/
structure RunState where
  oracle : Oracle
  machine : AMRStateMachine
  statsLog : List String
  trace : List Act
deriving DecidableEq

/-- The per-sentence derivation loop (`while tr.buffer or tr.stack`), fuel
bounded: each iteration consults the ladder, applies the winning action and
logs its statistic; the forced-empty exit leaves the loop with stack and
buffer cleared and logs nothing. -/
def runLoop (gold : AMR) : Nat → RunState → RunState
  | 0, rs => rs
  | fuel + 1, rs =>
    if rs.machine.buffer.isEmpty && rs.machine.stack.isEmpty then rs
    else
      let r := oracleStep rs.oracle rs.machine gold
      match r.act with
      | .FORCE_STOP =>
        { rs with machine := r.machine, trace := rs.trace ++ [.FORCE_STOP] }
      | a =>
        runLoop gold fuel
          { oracle := r.oracle, machine := applyAct a r.machine,
            statsLog := rs.statsLog ++ statFor a, trace := rs.trace ++ [a] }

/-- One sentence's derivation followed by the unconditional `tr.CLOSE(...)`
invocation of the driver. -/
def runSentence (gold : AMR) (fuel : Nat) (rs : RunState) : RunState :=
  let rs1 := runLoop gold fuel rs
  { rs1 with machine := applyClose rs1.machine }

/-! Helper lemmas. -/

theorem getLast?_of_ne_nil {l : List Int} (h : l ≠ []) :
    l.getLast? = some (l.getLastD 0) := by
  rw [List.getLastD_eq_getLast?]
  cases hx : l.getLast? with
  | none => exact absurd (List.getLast?_eq_none_iff.mp hx) h
  | some v => rfl

theorem isHeadLoop_true_not_mem (amr : PredAMR) (source target x y : Int)
    (r : String) :
    ∀ es, isHeadLoop amr source target x y es = (true, r) →
      (x, r, y) ∉ amr.edges := by
  intro es h
  induction es with
  | nil => simp [isHeadLoop] at h
  | cons e rest ih =>
    obtain ⟨s, r', t⟩ := e
    rw [isHeadLoop] at h
    split at h
    · rename_i hc
      obtain ⟨hr, -⟩ : r' = r ∧ True := by
        simpa using congrArg Prod.snd h
      subst hr
      simp only [Bool.and_eq_true, Bool.not_eq_true'] at hc
      intro hmem
      have hcm : amr.edges.contains (x, r', y) = true := List.elem_iff.mpr hmem
      rw [hcm] at hc
      simp at hc
    · exact ih h

theorem tryMergeCore_eq_true_iff (gold : AMR) (a b : Int) :
    tryMergeCore gold a b = true ↔
      a ≠ b ∧ alignmentsToken2Node gold a ≠ [] ∧
        alignmentsToken2Node gold b ≠ [] ∧
        (alignmentsToken2Node gold a = alignmentsToken2Node gold b ∨
          ∃ x, x ∈ alignmentsToken2Node gold a ∧
            x ∈ alignmentsToken2Node gold b) := by
  simp only [tryMergeCore]
  split_ifs with h1 h2 h3 h4 <;>
    simp_all [List.isEmpty_iff, List.any_eq_true, List.elem_iff] <;>
    tauto

theorem tryMergeCore_comm (gold : AMR) (a b : Int) :
    tryMergeCore gold a b = tryMergeCore gold b a := by
  apply Bool.coe_iff_coe.mp
  rw [tryMergeCore_eq_true_iff, tryMergeCore_eq_true_iff]
  constructor <;> rintro ⟨h1, h2, h3, h4⟩ <;>
    refine ⟨Ne.symm h1, h3, h2, ?_⟩ <;>
    rcases h4 with h | ⟨x, hx1, hx2⟩
  · exact Or.inl h.symm
  · exact Or.inr ⟨x, hx2, hx1⟩
  · exact Or.inl h.symm
  · exact Or.inr ⟨x, hx2, hx1⟩

/-! Concrete inputs used by witnesses and counterexamples. -/

/-- A two-node gold graph with one edge, each node aligned to its own token. -/
def goldPair : AMR :=
  ⟨["dog", "runs"], [(5, "dog"), (6, "run-01")], [(6, "ARG0", 5)], 6,
   [(5, [1]), (6, [2])]⟩

/-- An empty predicted graph over the same tokens. -/
def predEmpty : PredAMR := ⟨["dog", "runs"], [], []⟩

/-- A configuration whose top two stack items have been swapped already. -/
def machineSwapped : AMRStateMachine :=
  ⟨[1, 2], [], [], [], [], [(2, [1])], [], ["SHIFT", "SHIFT"],
   ⟨["dog", "runs"], [], []⟩⟩

/-- A configuration with token 1 on the stack, nothing confirmed, no
entities. -/
def machineFresh : AMRStateMachine :=
  ⟨[1], [2], [], [], [], [], [], ["SHIFT"], ⟨["dog", "runs"], [(1, "dog")], []⟩⟩

/-! Claim C2. -/

/-- Claim C2: whenever `isHead` reports a derivable edge `(x, r, y)`, that
edge is not already present in the predicted graph — a gold edge whose
predicted counterpart exists is never reported as derivable again. -/
theorem claim_C2 (amr : PredAMR) (gold : AMR) (x y : Int) (r : String)
    (h : isHead amr gold x y = (true, r)) : (x, r, y) ∉ amr.edges := by
  simp only [isHead] at h
  split at h
  · simp at h
  · exact isHeadLoop_true_not_mem amr _ _ x y r gold.edges h

/-- Witness for claim C2 at a concrete graph: `isHead` finds the gold edge
`run-01 -ARG0-> dog` between tokens 2 and 1 and the edge is absent from the
predicted graph. -/
theorem claim_C2_witness :
    isHead predEmpty goldPair 2 1 = (true, "ARG0") ∧
      (2, "ARG0", 1) ∉ predEmpty.edges :=
  ⟨by decide, claim_C2 predEmpty goldPair 2 1 "ARG0" (by decide)⟩

/-! Claim C6. -/

/-- Claim C6: when the top two stack items have already been swapped past
each other — recorded in `swapped_words` in either direction — `trySWAP`
refuses, so SWAP is never offered again for the same pair in either order. -/
theorem claim_C6 (ts : AMRStateMachine) (amr : PredAMR) (gold : AMR)
    (hlen : 2 ≤ ts.stack.length)
    (hrec : (swappedLookup ts (ts.stack.getLastD 0)).contains (stack1D ts) = true ∨
      (swappedLookup ts (stack1D ts)).contains (ts.stack.getLastD 0) = true) :
    trySWAP ts amr gold = false := by
  unfold trySWAP
  rw [if_neg (by omega)]
  dsimp only
  rcases hrec with h | h
  · rw [h, if_pos rfl]
  · cases hb : (swappedLookup ts (ts.stack.getLastD 0)).contains (stack1D ts)
    · rw [if_neg Bool.false_ne_true, h, if_pos rfl]
    · rw [if_pos rfl]

/-- Witness for claim C6 at a concrete configuration: items 2 (top) and 1
were swapped, and `trySWAP` returns false. -/
theorem claim_C6_witness :
    2 ≤ machineSwapped.stack.length ∧
      trySWAP machineSwapped machineSwapped.amr goldPair = false :=
  ⟨by decide, claim_C6 machineSwapped machineSwapped.amr goldPair (by decide)
    (Or.inl (by decide))⟩

/-! Claim C10. -/

/-- Claim C10: `tryMerge` is symmetric in its explicit item arguments, and
for actual item ids (Python-truthy, hence nonzero) it returns false when the
two items coincide or either alignment set is empty. -/
theorem claim_C10 (ts : AMRStateMachine) (amr : PredAMR) (gold : AMR)
    (a b : Int) :
    tryMerge ts amr gold (some a) (some b) =
        tryMerge ts amr gold (some b) (some a) ∧
      (a ≠ 0 → a = b → tryMerge ts amr gold (some a) (some b) = false) ∧
      (a ≠ 0 → b ≠ 0 →
        alignmentsToken2Node gold a = [] ∨ alignmentsToken2Node gold b = [] →
        tryMerge ts amr gold (some a) (some b) = false) := by
  refine ⟨?_, ?_, ?_⟩
  · unfold tryMerge
    rw [show (pyFalsy (some a) || pyFalsy (some b)) =
        (pyFalsy (some b) || pyFalsy (some a)) from Bool.or_comm _ _]
    cases hf : (pyFalsy (some b) || pyFalsy (some a))
    · rw [if_neg Bool.false_ne_true, if_neg Bool.false_ne_true]
      simp only [Option.getD_some]
      exact tryMergeCore_comm gold a b
    · rfl
  · intro ha hab
    subst hab
    unfold tryMerge
    have hf : pyFalsy (some a) = false := by simp [pyFalsy, ha]
    rw [hf]
    simp [tryMergeCore]
  · intro ha hb hal
    unfold tryMerge
    have hfa : pyFalsy (some a) = false := by simp [pyFalsy, ha]
    have hfb : pyFalsy (some b) = false := by simp [pyFalsy, hb]
    rw [hfa, hfb]
    simp only [Bool.or_self, Bool.false_eq_true, if_false, Option.getD_some]
    cases hMc : tryMergeCore gold a b
    · rfl
    · exfalso
      obtain ⟨-, hA, hB, -⟩ := (tryMergeCore_eq_true_iff gold a b).mp hMc
      rcases hal with h | h
      · exact hA h
      · exact hB h

/-- Witness for claim C10: symmetry and the two refusal conditions at
concrete inputs. -/
theorem claim_C10_witness :
    (3 : Int) ≠ 0 ∧
      tryMerge machineSwapped machineSwapped.amr goldPair (some 3) (some 3) = false :=
  ⟨by decide,
    (claim_C10 machineSwapped machineSwapped.amr goldPair 3 3).2.1 (by decide) rfl⟩

/-! Claim C5. -/

/-- Claim C5: under the applicability guard — singleton alignment, or the
previous action was DEPENDENT — `tryConfirm` returns true iff the stack top
is not yet confirmed and is not part of a recognized entity; it returns
false whenever the alignment size differs from one and the previous action
was not DEPENDENT; and on success it stores the resolved gold concept label
in `new_node`. -/
theorem claim_C5 (o : Oracle) (ts : AMRStateMachine) (gold : AMR)
    (hs : ts.stack ≠ []) :
    ((pyIn "DEPENDENT" (ts.actions.getLastD "") = true ∨
        (alignmentsToken2Node gold (ts.stack.getLastD 0)).length = 1) →
      ((tryConfirm o ts ts.amr gold).1 = true ↔
        ts.is_confirmed.contains (ts.stack.getLastD 0) = false ∧
          ts.entities.contains (ts.stack.getLastD 0) = false)) ∧
    (pyIn "DEPENDENT" (ts.actions.getLastD "") = false →
      (alignmentsToken2Node gold (ts.stack.getLastD 0)).length ≠ 1 →
      (tryConfirm o ts ts.amr gold).1 = false) ∧
    ((tryConfirm o ts ts.amr gold).1 = true →
      (tryConfirm o ts ts.amr gold).2.new_node =
        nodeLabel gold (resolvedGold gold (ts.stack.getLastD 0))) := by
  have hlast : ts.stack.getLast? = some (ts.stack.getLastD 0) :=
    getLast?_of_ne_nil hs
  generalize hg : ts.stack.getLastD 0 = s0 at hlast ⊢
  refine ⟨?_, ?_, ?_⟩ <;>
    simp only [tryConfirm, hlast] <;>
    cases hdp : pyIn "DEPENDENT" (ts.actions.getLastD "") <;>
      cases he : ts.entities.contains s0 <;>
        cases hc : ts.is_confirmed.contains s0 <;>
          by_cases hln : (alignmentsToken2Node gold s0).length = 1 <;>
            simp [hdp, he, hc, hln, resolvedGold]

/-- Witness for claim C5 at a concrete configuration: token 1 is on the
stack, unconfirmed, not an entity, aligned to the single gold node `dog`;
`tryConfirm` fires and stores the label. -/
theorem claim_C5_witness :
    machineFresh.stack ≠ [] ∧
      ((pyIn "DEPENDENT" (machineFresh.actions.getLastD "") = true ∨
          (alignmentsToken2Node goldPair (machineFresh.stack.getLastD 0)).length = 1) →
        ((tryConfirm initOracle machineFresh machineFresh.amr goldPair).1 = true ↔
          machineFresh.is_confirmed.contains (machineFresh.stack.getLastD 0) = false ∧
            machineFresh.entities.contains (machineFresh.stack.getLastD 0) = false)) :=
  ⟨by decide,
    (claim_C5 initOracle machineFresh goldPair (by decide)).1⟩

/-! Claim C1. -/

/-- Claim C1: at every iteration the driver's ladder equals first-true-wins
dispatch over the predicates consulted in the fixed order tryMerge,
tryEntity, tryConfirm, tryDependent, tryIntroduce, tryLA, tryRA, tryReduce,
trySWAP, applying the action of the first predicate that returns true, and
falling back to SHIFT exactly when all nine fail and the buffer is
non-empty. -/
theorem claim_C1 (o : Oracle) (ts : AMRStateMachine) (gold : AMR) :
    actTag (oracleStep o ts gold).act =
      specDispatch (predBools o ts gold) ts.buffer.isEmpty := by
  simp only [oracleStep, specDispatch, predBools, tagOrder, List.zip_cons_cons,
    List.zip_nil_left, List.zip_nil_right, dispatchList]
  cases h1 : tryMerge ts ts.amr gold none none <;>
    cases h2 : (tryEntity o ts ts.amr gold).1 <;>
      cases h3 : (tryConfirm o ts ts.amr gold).1 <;>
        cases h4 : (tryDependent o ts ts.amr gold).1 <;>
          cases h5 : (tryIntroduce ts ts.amr gold).1 <;>
            cases h6 : (tryLA o ts ts.amr gold).1 <;>
              cases h7 : (tryRA o ts ts.amr gold).1 <;>
                cases h8 : tryReduce ts ts.amr gold <;>
                  cases h9 : trySWAP ts ts.amr gold <;>
                    cases h10 : ts.buffer.isEmpty <;>
                      simp [actTag]

/-! Claim C3. -/

theorem lookup_removeAlign (r : Int) (pos : Int) :
    ∀ (l : List (Int × List Int)) (k : Int),
      List.lookup k (removeAlign l r pos) =
        (List.lookup k l).map (fun v => if k = r then v.erase pos else v) := by
  intro l
  induction l with
  | nil => intro k; rfl
  | cons p rest ih =>
    intro k
    obtain ⟨pk, pv⟩ := p
    have hcons : removeAlign ((pk, pv) :: rest) r pos =
        (if (pk == r) = true then (pk, pv.erase pos) else (pk, pv)) ::
          removeAlign rest r pos := rfl
    rw [hcons]
    by_cases hkr : pk = r
    · subst hkr
      rw [if_pos (by simp)]
      by_cases hkk : k = pk
      · subst hkk
        simp [List.lookup]
      · simp [List.lookup, beq_false_of_ne hkk, ih k]
    · rw [if_neg (by simp [hkr])]
      by_cases hkk : k = pk
      · subst hkk
        simp [List.lookup, hkr]
      · simp [List.lookup, beq_false_of_ne hkk, ih k]

theorem lookup_of_mem_of_nodupKeys :
    ∀ (l : List (Int × List Int)) (k : Int) (v : List Int),
      (l.map Prod.fst).Nodup → (k, v) ∈ l → List.lookup k l = some v := by
  intro l
  induction l with
  | nil => simp
  | cons p rest ih =>
    intro k v hnd hmem
    obtain ⟨pk, pv⟩ := p
    simp only [List.map_cons, List.nodup_cons] at hnd
    rcases List.mem_cons.mp hmem with he | ht
    · obtain ⟨h1, h2⟩ := Prod.mk.injEq .. ▸ he
      subst h1 h2
      simp [List.lookup]
    · have hk : k ≠ pk := by
        intro h
        subst h
        exact hnd.1 (List.mem_map.mpr ⟨(k, v), ht, rfl⟩)
      simp only [List.lookup, beq_false_of_ne hk]
      exact ih k v hnd.2 ht

theorem mem_alignLookup_of_mem_token2node (g : AMR) (p n : Int)
    (hnodup : (g.alignments.map Prod.fst).Nodup)
    (hmem : n ∈ alignmentsToken2Node g p) : p ∈ alignLookup g n := by
  unfold alignmentsToken2Node at hmem
  obtain ⟨⟨k, v⟩, hin, hf⟩ := List.mem_filterMap.mp hmem
  by_cases hc : v.contains p
  · rw [if_pos hc] at hf
    injection hf with hkn
    subst hkn
    unfold alignLookup
    rw [lookup_of_mem_of_nodupKeys g.alignments _ v hnodup hin]
    exact List.elem_iff.mp hc
  · rw [if_neg hc] at hf
    exact absurd hf (by simp)

/-- Modelled from the claim's words, for comparison with the source's
`codeRemoveChoice`: remove the link to the node whose label does not share a
2-character prefix with the token text and whose alignment set is not the
larger of the two; when this preference does not single out one node, remove
the second node's link. -/
def claimRemoveChoice (gold : AMR) (tok : String) (a0 a1 : Int) : Int :=
  let bad0 := !(pyStartswith (nodeLabel gold a0) (pySlice tok 2)) &&
    !(decide ((alignLookup gold a0).length > (alignLookup gold a1).length))
  let bad1 := !(pyStartswith (nodeLabel gold a1) (pySlice tok 2)) &&
    !(decide ((alignLookup gold a1).length > (alignLookup gold a0).length))
  if bad0 && !bad1 then a0
  else if bad1 && !bad0 then a1
  else a1

/-- A gold graph on which the claimed removal preference and the code
disagree: the single token `go` is aligned to the two unconnected nodes
`go-01` and `go-02`, both labels share the token's 2-character prefix and
the alignment sets have equal size. -/
def goldTie : AMR :=
  ⟨["go"], [(1, "go-01"), (2, "go-02")], [], 1, [(1, [1]), (2, [1])]⟩

/-- Counterexample to claim C3 as stated: on `goldTie` the claim's
preference does not decide (both labels share the prefix), so the claim
removes the second node's link; the code instead removes the first node's
link — node 2 keeps its alignment and node 1 loses it. -/
theorem claim_C3_counterexample :
    alignmentsToken2Node goldTie 1 = [1, 2] ∧
      goldTie.edges.filter (fun e =>
        (alignmentsToken2Node goldTie 1).contains e.1 &&
          (alignmentsToken2Node goldTie 1).contains e.2.2) = [] ∧
      claimRemoveChoice goldTie "go" 1 2 = 2 ∧
      codeRemoveChoice goldTie "go" 1 2 = 1 ∧
      alignLookup (cleanStep goldTie 0) 1 = [] ∧
      alignLookup (cleanStep goldTie 0) 2 = [1] := by
  decide

/-- Claim C3 amended: for every token aligned to exactly two gold nodes with
no gold edge between them, exactly one of the two node-to-token links is
removed — the link to the first node when the second node's label shares a
2-character prefix with the token text or the first node's alignment set is
strictly larger than the second's, and the link to the second node
otherwise; every other node's alignment is untouched. -/
theorem claim_C3_amended (gold : AMR) (i : Nat) (a0 a1 : Int)
    (halign : alignmentsToken2Node gold (Int.ofNat (i + 1)) = [a0, a1])
    (hnoe : gold.edges.filter (fun e =>
        (alignmentsToken2Node gold (Int.ofNat (i + 1))).contains e.1 &&
          (alignmentsToken2Node gold (Int.ofNat (i + 1))).contains e.2.2) = [])
    (hnodup : (gold.alignments.map Prod.fst).Nodup) :
    Int.ofNat (i + 1) ∈
        alignLookup gold (codeRemoveChoice gold (gold.tokens.getD i "") a0 a1) ∧
      alignLookup (cleanStep gold i)
          (codeRemoveChoice gold (gold.tokens.getD i "") a0 a1) =
        (alignLookup gold
            (codeRemoveChoice gold (gold.tokens.getD i "") a0 a1)).erase
          (Int.ofNat (i + 1)) ∧
      ∀ n, n ≠ codeRemoveChoice gold (gold.tokens.getD i "") a0 a1 →
        alignLookup (cleanStep gold i) n = alignLookup gold n := by
  have hstep : cleanStep gold i =
      { gold with alignments :=
          removeAlign gold.alignments (codeRemoveChoice gold (gold.tokens.getD i "") a0 a1) (Int.ofNat (i + 1)) } := by
    unfold cleanStep
    rw [halign] at hnoe ⊢
    dsimp only
    rw [hnoe]
    simp
  have hmemr : codeRemoveChoice gold (gold.tokens.getD i "") a0 a1 ∈
      alignmentsToken2Node gold (Int.ofNat (i + 1)) := by
    rw [halign]
    unfold codeRemoveChoice
    split <;> simp
  refine ⟨?_, ?_, ?_⟩
  · exact mem_alignLookup_of_mem_token2node gold _ _ hnodup hmemr
  · rw [hstep]
    unfold alignLookup
    rw [lookup_removeAlign]
    cases List.lookup (codeRemoveChoice gold (gold.tokens.getD i "") a0 a1)
        gold.alignments <;> simp
  · intro n hn
    rw [hstep]
    unfold alignLookup
    rw [lookup_removeAlign]
    cases List.lookup n gold.alignments
    · rfl
    · simp only [Option.map_some', Option.getD_some]
      rw [if_neg hn]

/-- A gold graph on which the code's removal choice takes the default
branch: labels `dog` and `cat`, token `dog`. -/
def goldClean : AMR :=
  ⟨["dog"], [(1, "dog"), (2, "cat")], [], 1, [(1, [1]), (2, [1])]⟩

/-- Witness for the amended claim C3 at a concrete graph: the second node's
label `cat` does not share the token's prefix and the alignment sets are of
equal size, so the second node's link is removed and node 1 keeps its
alignment. -/
theorem claim_C3_witness :
    alignmentsToken2Node goldClean 1 = [1, 2] ∧
      codeRemoveChoice goldClean "dog" 1 2 = 2 ∧
      (1 : Int) ∈ alignLookup goldClean (codeRemoveChoice goldClean "dog" 1 2) ∧
      alignLookup (cleanStep goldClean 0)
          (codeRemoveChoice goldClean "dog" 1 2) =
        (alignLookup goldClean (codeRemoveChoice goldClean "dog" 1 2)).erase 1 :=
  ⟨by decide, by decide,
    (claim_C3_amended goldClean 0 1 2 (by decide) (by decide) (by decide)).1,
    (claim_C3_amended goldClean 0 1 2 (by decide) (by decide) (by decide)).2.1⟩

/-! Claim C4. -/

/-- A gold graph whose derivation stalls: token 1 is aligned to node 10,
which has an undischarged gold edge, so REDUCE refuses; the token is already
confirmed, so CONFIRM refuses; every other predicate fails and the buffer is
empty. -/
def goldStall : AMR :=
  ⟨["a"], [(10, "aa"), (11, "bb")], [(10, "x", 11)], 10, [(10, [1])]⟩

/-- The stalled configuration: buffer empty, token 1 on the stack. -/
def machineStall : AMRStateMachine :=
  ⟨[1], [], [], [], [], [], [1], ["SHIFT"], ⟨["a"], [(1, "a")], []⟩⟩

/-- Run state at the stall. -/
def runStall : RunState := ⟨initOracle, machineStall, [], []⟩

/-- Claim C4, evaluated at the stalling input: all nine predicates fail with
an empty buffer and a non-empty stack, the driver empties both collections,
exits, and still invokes CLOSE — but no statistics-counter increment records
the stall (the statistics log stays empty and the statistics table has no
stall key), so the stall is silently dropped, contradicting the claim's
"counted and reported" part. -/
theorem claim_C4 :
    predBools initOracle machineStall goldStall =
        [false, false, false, false, false, false, false, false, false] ∧
      machineStall.buffer = [] ∧
      machineStall.stack ≠ [] ∧
      (oracleStep initOracle machineStall goldStall).act = Act.FORCE_STOP ∧
      (runSentence goldStall 3 runStall).machine.stack = [] ∧
      (runSentence goldStall 3 runStall).machine.buffer = [] ∧
      (runSentence goldStall 3 runStall).machine.actions = ["SHIFT", "CLOSE"] ∧
      (runSentence goldStall 3 runStall).statsLog = [] ∧
      "stall" ∉ statKeys := by
  decide

/-! Claim C9. -/

theorem tryConfirm_dep (o : Oracle) (ts : AMRStateMachine) (amr : PredAMR)
    (gold : AMR) : ((tryConfirm o ts amr gold).2).dep_id = o.dep_id := by
  unfold tryConfirm
  cases ts.stack.getLast? with
  | none => rfl
  | some s =>
    dsimp only
    (repeat' split) <;> rfl

theorem tryEntity_dep (o : Oracle) (ts : AMRStateMachine) (amr : PredAMR)
    (gold : AMR) : ((tryEntity o ts amr gold).2).dep_id = o.dep_id := by
  unfold tryEntity
  cases ts.stack.getLast? with
  | none => rfl
  | some s =>
    dsimp only
    (repeat' split) <;> rfl

theorem tryLA_dep (o : Oracle) (ts : AMRStateMachine) (amr : PredAMR)
    (gold : AMR) : ((tryLA o ts amr gold).2).dep_id = o.dep_id := by
  unfold tryLA
  dsimp only
  (repeat' split) <;> rfl

theorem tryRA_dep (o : Oracle) (ts : AMRStateMachine) (amr : PredAMR)
    (gold : AMR) : ((tryRA o ts amr gold).2).dep_id = o.dep_id := by
  unfold tryRA
  dsimp only
  (repeat' split) <;> rfl

theorem tryDependentLoop_dep (o : Oracle) (ts : AMRStateMachine)
    (amr : PredAMR) (gold : AMR) (stack0 source : Int) (ta : List Int) :
    ∀ es, ((tryDependentLoop o ts amr gold stack0 source ta es).2).dep_id =
      o.dep_id := by
  intro es
  induction es with
  | nil => rfl
  | cons e rest ih =>
    obtain ⟨s, r, t⟩ := e
    rw [tryDependentLoop]
    (repeat' split) <;> first | rfl | exact ih

theorem tryDependent_dep (o : Oracle) (ts : AMRStateMachine) (amr : PredAMR)
    (gold : AMR) : ((tryDependent o ts amr gold).2).dep_id = o.dep_id := by
  unfold tryDependent
  cases ts.stack.getLast? with
  | none => rfl
  | some s =>
    dsimp only
    (repeat' split) <;> first | rfl | apply tryDependentLoop_dep

theorem oracleStep_dep_oracle (o : Oracle) (ts : AMRStateMachine) (gold : AMR)
    (h : o.dep_id = none) :
    (oracleStep o ts gold).oracle.dep_id = none := by
  unfold oracleStep
  (repeat' split) <;>
    simp [h, tryEntity_dep, tryConfirm_dep, tryDependent_dep, tryLA_dep,
      tryRA_dep]

theorem oracleStep_dep_act (o : Oracle) (ts : AMRStateMachine) (gold : AMR)
    (h : o.dep_id = none) :
    ∀ e n i, (oracleStep o ts gold).act = Act.DEPENDENT e n i → i = none := by
  intro e n i
  unfold oracleStep
  (repeat' split) <;> intro hact <;> cases hact <;>
    (rw [tryDependent_dep]; exact h)

/-- Boolean check that every DEPENDENT action in a trace carries
`node_id = None`. -/
def depIdsNoneB (tr : List Act) : Bool :=
  tr.all fun a =>
    match a with
    | .DEPENDENT _ _ i => i == none
    | _ => true

/-- Claim C9: the scratch slot `dep_id` is `None` at the start of every
step of the derivation loop — it is initialised to `None`, `tryDependent`
never assigns it, and the driver resets it to `None` right after each
DEPENDENT action — so every DEPENDENT action the driver emits carries
`node_id = None`. -/
theorem claim_C9 (gold : AMR) :
    ∀ (fuel : Nat) (rs : RunState), rs.oracle.dep_id = none →
      depIdsNoneB rs.trace = true →
      ((runLoop gold fuel rs).oracle.dep_id = none ∧
        depIdsNoneB (runLoop gold fuel rs).trace = true) ∧
      (∀ o ts amr g, ((tryDependent o ts amr g).2).dep_id = o.dep_id) ∧
      initOracle.dep_id = none := by
  intro fuel
  induction fuel with
  | zero =>
    intro rs h1 h2
    exact ⟨⟨h1, h2⟩, fun o ts amr g => tryDependent_dep o ts amr g, rfl⟩
  | succ n ih =>
    intro rs h1 h2
    refine ⟨?_, fun o ts amr g => tryDependent_dep o ts amr g, rfl⟩
    rw [runLoop]
    split
    · exact ⟨h1, h2⟩
    · dsimp only
      split
      · constructor
        · exact h1
        · simp only [depIdsNoneB, List.all_append, Bool.and_eq_true] at h2 ⊢
          simp [h2]
      · refine ((ih _ ?_ ?_).1)
        · exact oracleStep_dep_oracle rs.oracle rs.machine gold h1
        · simp only [depIdsNoneB, List.all_append, Bool.and_eq_true] at h2 ⊢
          refine ⟨h2, ?_⟩
          cases hact : (oracleStep rs.oracle rs.machine gold).act <;> simp
          rename_i e nn i
          exact oracleStep_dep_act rs.oracle rs.machine gold h1 e nn i hact

/-- Witness for claim C9 at a concrete run starting from the initial oracle
scratch state. -/
theorem claim_C9_witness :
    runStall.oracle.dep_id = none ∧ depIdsNoneB runStall.trace = true ∧
      ((runLoop goldStall 3 runStall).oracle.dep_id = none ∧
        depIdsNoneB (runLoop goldStall 3 runStall).trace = true) :=
  ⟨rfl, rfl, (claim_C9 goldStall 3 runStall rfl rfl).1⟩

/-- A configuration with empty stack and buffer. -/
def machineDone : AMRStateMachine :=
  ⟨[], [], [], [], [], [], [], [], ⟨["dog", "runs"], [], []⟩⟩

/-! Claim C8. -/

/-- The derivation relation of one sentence read off the driver loop: a
trace is a possible action sequence when each step is licensed by the
configuration — termination when both collections are empty, the forced
exit, or the ladder's chosen action followed by a run from the successor
state. -/
inductive OracleRun (gold : AMR) : Oracle → AMRStateMachine → List Act → Prop where
  | done : ∀ o ts, ts.buffer = [] → ts.stack = [] → OracleRun gold o ts []
  | halt : ∀ o ts, ¬ (ts.buffer = [] ∧ ts.stack = []) →
      (oracleStep o ts gold).act = Act.FORCE_STOP →
      OracleRun gold o ts [Act.FORCE_STOP]
  | step : ∀ o ts tr, ¬ (ts.buffer = [] ∧ ts.stack = []) →
      (oracleStep o ts gold).act ≠ Act.FORCE_STOP →
      OracleRun gold (oracleStep o ts gold).oracle
        (applyAct (oracleStep o ts gold).act (oracleStep o ts gold).machine) tr →
      OracleRun gold o ts ((oracleStep o ts gold).act :: tr)

/-- Claim C8: the derivation is deterministic — for a fixed gold graph and
starting configuration any two traces of the derivation relation coincide,
because the oracle's decision at each step is a function of the
configuration and the gold graph. -/
theorem claim_C8 (gold : AMR) (o : Oracle) (ts : AMRStateMachine)
    (tr1 tr2 : List Act) (h1 : OracleRun gold o ts tr1)
    (h2 : OracleRun gold o ts tr2) : tr1 = tr2 := by
  induction h1 generalizing tr2 with
  | done o ts hb hs =>
    cases h2 with
    | done => rfl
    | halt _ _ hne => exact absurd ⟨hb, hs⟩ hne
    | step _ _ _ hne => exact absurd ⟨hb, hs⟩ hne
  | halt o ts hne hact =>
    cases h2 with
    | done _ _ hb hs => exact absurd ⟨hb, hs⟩ hne
    | halt => rfl
    | step _ _ _ _ hact2 _ => exact absurd hact hact2
  | step o ts tr hne hact hrun ih =>
    cases h2 with
    | done _ _ hb hs => exact absurd ⟨hb, hs⟩ hne
    | halt _ _ _ hact2 => exact absurd hact2 hact
    | step _ _ _ _ _ hrun2 => rw [ih _ hrun2]

/-- Witness for claim C8: a finished configuration has the empty trace as
its unique run. -/
theorem claim_C8_witness :
    OracleRun goldPair initOracle machineDone [] ∧ ([] : List Act) = [] :=
  ⟨OracleRun.done initOracle machineDone rfl rfl,
    claim_C8 goldPair initOracle machineDone [] []
      (OracleRun.done initOracle machineDone rfl rfl)
      (OracleRun.done initOracle machineDone rfl rfl)⟩

end AMROracle
